import Mathlib

/-!
Verification development for the `CheckCacher` response-freshness cache
(`src/check_cacher.cc` of the mixerclient repository).

The repository ships only `check_cacher.cc`. The collaborators it uses —
`SimpleCycleTimer`, the signature generator, the `CheckCache` bounded store
(`SimpleLRUCacheWithDeleter`) and the `CacheElem` declaration in
`check_cacher.h` — are not part of the sources, so they are modelled from the
specification at their interface boundary (each such definition carries a
doc comment saying so). All the branching logic of `check_cacher.cc` itself
is translated directly from the source.

Time is passed explicitly: `now` is the cycle counter (`SimpleCycleTimer::Now()`)
at the call, and the bounded store's idle sweep receives the current time in
seconds as a rational. The deletion hook (`OnCacheEntryDelete`, which just
deletes the element) is modelled by returning the list of elements it was
invoked on.
-/

namespace MixerClient

/-- Cached response payload. The cacher stores and copies it wholesale and
never inspects it, so it is modelled as a natural number. -/
abbrev CheckResponse := Nat

/-- A request's attribute set. The cacher only ever feeds it to the
signature generator, so it is modelled by its opaque key. -/
abbrev Attributes := String

/-- Modelled from the spec: the external Signature Generator
(`GenerateSignature` of `src/signature.h`, not under the sources) is a
deterministic map from an attribute set to a string key, used identically by
`Check` and `CacheResponse`; it is modelled as the identity on the opaque
attribute key. -/
def GenerateSignature (attributes : Attributes) : String := attributes

/-- Configuration surface (`CheckOptions`, declared in the header which is
not under the sources; the fields are exactly those `check_cacher.cc` reads):
`num_entries` (negative disables caching), `flush_interval_ms`,
`expiration_ms`. -/
structure CheckOptions where
  num_entries : Int
  flush_interval_ms : Int
  expiration_ms : Int
deriving Repr, DecidableEq

/-- `CacheElem` as used by `check_cacher.cc` (declared in the header):
a cached response plus the cycle time of its last check. -/
structure CacheElem where
  check_response : CheckResponse
  last_check_time : Int
deriving Repr, DecidableEq

/-- Modelled from the spec: one slot of the Bounded Store — the owned
`CacheElem` together with the store-internal last-use time (seconds) that
drives idle expiration. -/
structure StoreSlot where
  elem : CacheElem
  last_use_seconds : Rat
deriving Repr, DecidableEq

/-- Modelled from the spec: the Bounded Store (`CheckCache`, an LRU cache
with a deletion hook, not under the sources): a mapping from signature to
slot with a settable idle-seconds threshold. The capacity-eviction policy is
store-internal and opaque per the spec, and is not modelled. -/
structure CheckCache where
  entries : List (String × StoreSlot)
  max_idle_seconds : Rat
deriving Repr, DecidableEq

/-- Modelled from the spec: `ScopedLookup` — find the slot stored under a
key, if any. -/
def CheckCache.lookup (c : CheckCache) (key : String) : Option StoreSlot :=
  (c.entries.find? (fun p => decide (p.1 = key))).map Prod.snd

/-- Modelled from the spec: `Insert` — store a slot under a key (replacing
any slot already there, keeping at most one entry per signature). -/
def CheckCache.insert (c : CheckCache) (key : String) (slot : StoreSlot) : CheckCache :=
  { c with entries := (key, slot) :: c.entries.filter (fun p => decide (p.1 ≠ key)) }

/-- Modelled from the spec: mutate in place the slot stored under a key
(the effect of writing through a scoped-lookup handle). -/
def CheckCache.update (c : CheckCache) (key : String) (f : StoreSlot → StoreSlot) :
    CheckCache :=
  { c with entries := c.entries.map (fun p => if p.1 = key then (p.1, f p.2) else p) }

/-- Modelled from the spec: `RemoveExpiredEntries` — remove every entry whose
idle time (now minus last use, in seconds) is at or above the idle-seconds
threshold, returning the new store and the elements passed to the deletion
hook. -/
def CheckCache.removeExpiredEntries (c : CheckCache) (now_seconds : Rat) :
    CheckCache × List CacheElem :=
  ({ c with
      entries := c.entries.filter
        (fun p => decide (now_seconds - p.2.last_use_seconds < c.max_idle_seconds)) },
   (c.entries.filter
      (fun p => decide (c.max_idle_seconds ≤ now_seconds - p.2.last_use_seconds))).map
     (fun p => p.2.elem))

/-- Modelled from the spec: `RemoveAll` — drain the store, returning the new
(empty) store and the elements passed to the deletion hook. -/
def CheckCache.removeAll (c : CheckCache) : CheckCache × List CacheElem :=
  ({ c with entries := [] }, c.entries.map (fun p => p.2.elem))

/-- The google.protobuf status values `check_cacher.cc` produces:
`Status::OK` and `Status(Code::NOT_FOUND, "")`. -/
inductive Status where
  | ok
  | notFound
deriving Repr, DecidableEq

/-- The `CheckCacher` state: the immutable options, the staleness threshold
in cycle units computed once at construction, and the optional bounded store
(absent exactly when caching is disabled). The mutex is not modelled: every
operation is a single critical section. -/
structure CheckCacher where
  options : CheckOptions
  flush_interval_in_cycle : Int
  cache : Option CheckCache
deriving Repr, DecidableEq

/-- `CheckCacher::CheckCacher(options)`. `frequency` is
`SimpleCycleTimer::Frequency()` (ticks per second; external clock).
`flush_interval_in_cycle_ = options_.flush_interval_ms * Frequency() / 1000`
in C++ int64 arithmetic, so `Int.tdiv` (truncation toward zero);
the cache is created only when `options.num_entries >= 0`, and its idle
threshold is `SetMaxIdleSeconds(options.expiration_ms / 1000.0)`, modelled
exactly as the rational `expiration_ms / 1000`. -/
def mkCheckCacher (options : CheckOptions) (frequency : Int) : CheckCacher :=
  { options := options
    flush_interval_in_cycle := Int.tdiv (options.flush_interval_ms * frequency) 1000
    cache :=
      if 0 ≤ options.num_entries then
        some { entries := [], max_idle_seconds := (options.expiration_ms : Rat) / 1000 }
      else none }

/-- `CheckCacher::ShouldFlush(elem)`:
`age = Now() - elem.last_check_time(); return age >= flush_interval_in_cycle_`. -/
def CheckCacher.ShouldFlush (c : CheckCacher) (now : Int) (elem : CacheElem) : Bool :=
  let age := now - elem.last_check_time
  decide (c.flush_interval_in_cycle ≤ age)

/-- `CheckCacher::Check(attributes, response)`: derive the signature, look it
up; not found → `NOT_FOUND`; found but `ShouldFlush` → `NOT_FOUND` without
touching the entry; otherwise set `last_check_time = now`, copy the stored
response out, return `OK`. The returned triple is
(status, output slot — `none` when left unwritten, new state).
A lookup on the absent cache reports not found (modelled from the spec:
`ScopedLookup` on a disabled cache finds nothing). -/
def CheckCacher.Check (c : CheckCacher) (now : Int) (attributes : Attributes) :
    Status × Option CheckResponse × CheckCacher :=
  let request_signature := GenerateSignature attributes
  match c.cache with
  | none => (Status.notFound, none, c)
  | some cache =>
    match cache.lookup request_signature with
    | none => (Status.notFound, none, c)
    | some slot =>
      if c.ShouldFlush now slot.elem then
        (Status.notFound, none, c)
      else
        let cache' := cache.update request_signature
          (fun s => { s with elem := { s.elem with last_check_time := now } })
        (Status.ok, some slot.elem.check_response, { c with cache := some cache' })

/-- `CheckCacher::CacheResponse(attributes, response)`: no-op returning `OK`
when the cache is absent; otherwise look up the signature — if found,
overwrite the element's `last_check_time` and response in place (the store's
internal recency metadata is opaque and left unchanged); if not found, insert
`new CacheElem(response, now)` whose store slot starts its idle clock at
`now_seconds`. Always returns `OK`. -/
def CheckCacher.CacheResponse (c : CheckCacher) (now : Int) (now_seconds : Rat)
    (attributes : Attributes) (response : CheckResponse) : Status × CheckCacher :=
  match c.cache with
  | none => (Status.ok, c)
  | some cache =>
    let request_signature := GenerateSignature attributes
    match cache.lookup request_signature with
    | some _ =>
      let cache' := cache.update request_signature
        (fun s => { s with
          elem := { check_response := response, last_check_time := now } })
      (Status.ok, { c with cache := some cache' })
    | none =>
      let cache' := cache.insert request_signature
        { elem := { check_response := response, last_check_time := now }
          last_use_seconds := now_seconds }
      (Status.ok, { c with cache := some cache' })

/-- `CheckCacher::GetNextFlushInterval()`:
`if (!cache_) return -1; return options_.expiration_ms;`. -/
def CheckCacher.GetNextFlushInterval (c : CheckCacher) : Int :=
  match c.cache with
  | none => -1
  | some _ => c.options.expiration_ms

/-- `CheckCacher::Flush()`: `if (cache_) cache_->RemoveExpiredEntries();`
returns `OK`; the third component lists the elements handed to the deletion
hook `OnCacheEntryDelete`. -/
def CheckCacher.Flush (c : CheckCacher) (now_seconds : Rat) :
    Status × CheckCacher × List CacheElem :=
  match c.cache with
  | none => (Status.ok, c, [])
  | some cache =>
    let r := cache.removeExpiredEntries now_seconds
    (Status.ok, { c with cache := some r.1 }, r.2)

/-- `CheckCacher::FlushAll()`: `if (cache_) cache_->RemoveAll();` returns
`OK`; the third component lists the elements handed to the deletion hook. -/
def CheckCacher.FlushAll (c : CheckCacher) :
    Status × CheckCacher × List CacheElem :=
  match c.cache with
  | none => (Status.ok, c, [])
  | some cache =>
    let r := cache.removeAll
    (Status.ok, { c with cache := some r.1 }, r.2)

/-- The set of signatures currently holding a Cache Entry. -/
def CheckCacher.keys (c : CheckCacher) : List String :=
  match c.cache with
  | none => []
  | some cache => cache.entries.map Prod.fst

/-- One public operation of the coordinator, with the clock readings it
observes. -/
inductive Op where
  | check (now : Int) (attributes : Attributes)
  | cacheResponse (now : Int) (now_seconds : Rat) (attributes : Attributes)
      (response : CheckResponse)
  | flush (now_seconds : Rat)
  | flushAll
deriving Repr

/-- The state after one operation. -/
def applyOp (c : CheckCacher) : Op → CheckCacher
  | .check now attributes => (c.Check now attributes).2.2
  | .cacheResponse now ns attributes response =>
      (c.CacheResponse now ns attributes response).2
  | .flush ns => (c.Flush ns).2.1
  | .flushAll => (c.FlushAll).2.1

/-- The state after a sequence of operations. -/
def run (c : CheckCacher) (ops : List Op) : CheckCacher := ops.foldl applyOp c

/-! ### Helper lemmas about the association-list store -/

theorem find_keyMatch_filter_of_keep (l : List (String × StoreSlot)) (k : String)
    (q : String × StoreSlot → Bool) (pr : String × StoreSlot)
    (hf : l.find? (fun p => decide (p.1 = k)) = some pr) (hq : q pr = true) :
    (l.filter q).find? (fun p => decide (p.1 = k)) = some pr := by
  induction l with
  | nil => simp at hf
  | cons hd tl ih =>
    by_cases h : hd.1 = k
    · rw [List.find?_cons_of_pos _ (by simpa using h)] at hf
      cases hf
      rw [List.filter_cons_of_pos hq]
      exact List.find?_cons_of_pos _ (by simpa using h)
    · rw [List.find?_cons_of_neg _ (by simpa using h)] at hf
      by_cases hqh : q hd = true
      · rw [List.filter_cons_of_pos hqh]
        rw [List.find?_cons_of_neg _ (by simpa using h)]
        exact ih hf
      · rw [List.filter_cons_of_neg (by simpa using hqh)]
        exact ih hf

theorem find_keyMatch_eq_none_of_not_mem (l : List (String × StoreSlot)) (k : String)
    (h : ∀ p ∈ l, p.1 ≠ k) :
    l.find? (fun p => decide (p.1 = k)) = none := by
  rw [List.find?_eq_none]
  intro p hp
  simpa using h p hp

theorem find_keyMatch_filter_of_drop (l : List (String × StoreSlot)) (k : String)
    (q : String × StoreSlot → Bool) (pr : String × StoreSlot)
    (hnd : (l.map Prod.fst).Nodup)
    (hf : l.find? (fun p => decide (p.1 = k)) = some pr) (hq : q pr = false) :
    (l.filter q).find? (fun p => decide (p.1 = k)) = none := by
  induction l with
  | nil => simp at hf
  | cons hd tl ih =>
    rw [List.map_cons, List.nodup_cons] at hnd
    by_cases h : hd.1 = k
    · rw [List.find?_cons_of_pos _ (by simpa using h)] at hf
      cases hf
      rw [List.filter_cons_of_neg (by simpa using hq)]
      apply find_keyMatch_eq_none_of_not_mem
      intro p hp
      rcases List.mem_filter.mp hp with ⟨hmem, _⟩
      intro hk
      exact hnd.1 (h ▸ hk ▸ List.mem_map_of_mem Prod.fst hmem)
    · rw [List.find?_cons_of_neg _ (by simpa using h)] at hf
      by_cases hqh : q hd = true
      · rw [List.filter_cons_of_pos hqh]
        rw [List.find?_cons_of_neg _ (by simpa using h)]
        exact ih hnd.2 hf
      · rw [List.filter_cons_of_neg (by simpa using hqh)]
        exact ih hnd.2 hf

theorem find_keyMatch_of_mem (l : List (String × StoreSlot)) (pr : String × StoreSlot)
    (hnd : (l.map Prod.fst).Nodup) (hm : pr ∈ l) :
    l.find? (fun p => decide (p.1 = pr.1)) = some pr := by
  induction l with
  | nil => simp at hm
  | cons hd tl ih =>
    rw [List.map_cons, List.nodup_cons] at hnd
    rcases List.mem_cons.mp hm with hm | hm
    · cases hm
      exact List.find?_cons_of_pos _ (by simp)
    · rw [List.find?_cons_of_neg]
      · exact ih hnd.2 hm
      · simp only [decide_eq_true_eq]
        intro h
        exact hnd.1 (h ▸ List.mem_map_of_mem Prod.fst hm)

theorem find_keyMatch_map_update (l : List (String × StoreSlot)) (k q : String)
    (f : StoreSlot → StoreSlot) :
    (l.map (fun p => if p.1 = k then (p.1, f p.2) else p)).find?
        (fun p => decide (p.1 = q)) =
      (l.find? (fun p => decide (p.1 = q))).map
        (fun p => if p.1 = k then (p.1, f p.2) else p) := by
  induction l with
  | nil => simp
  | cons hd tl ih =>
    have hfst : (if hd.1 = k then (hd.1, f hd.2) else hd).1 = hd.1 := by
      by_cases h : hd.1 = k <;> simp [h]
    by_cases h : hd.1 = q
    · rw [List.map_cons, List.find?_cons_of_pos _ (by simpa [hfst] using h),
        List.find?_cons_of_pos _ (by simpa using h)]
      rfl
    · rw [List.map_cons, List.find?_cons_of_neg _ (by simpa [hfst] using h),
        List.find?_cons_of_neg _ (by simpa using h)]
      exact ih

theorem find_keyMatch_filter_ne (l : List (String × StoreSlot)) (k q : String)
    (h : q ≠ k) :
    (l.filter (fun p => decide (p.1 ≠ k))).find? (fun p => decide (p.1 = q)) =
      l.find? (fun p => decide (p.1 = q)) := by
  induction l with
  | nil => simp
  | cons hd tl ih =>
    by_cases hk : hd.1 = k
    · rw [List.filter_cons_of_neg (by simpa using hk)]
      rw [List.find?_cons_of_neg _ (by simp only [hk, decide_eq_true_eq]; exact fun e => h e.symm)]
      exact ih
    · rw [List.filter_cons_of_pos (by simpa using hk)]
      by_cases hq : hd.1 = q
      · rw [List.find?_cons_of_pos _ (by simpa using hq),
          List.find?_cons_of_pos _ (by simpa using hq)]
      · rw [List.find?_cons_of_neg _ (by simpa using hq),
          List.find?_cons_of_neg _ (by simpa using hq)]
        exact ih

/-! ### Store-level lemmas -/

theorem CheckCache.lookup_insert_self (c : CheckCache) (k : String) (slot : StoreSlot) :
    (c.insert k slot).lookup k = some slot := by
  simp [CheckCache.insert, CheckCache.lookup]

theorem CheckCache.lookup_insert_ne (c : CheckCache) (k q : String) (slot : StoreSlot)
    (h : q ≠ k) : (c.insert k slot).lookup q = c.lookup q := by
  unfold CheckCache.insert CheckCache.lookup
  simp only
  rw [List.find?_cons_of_neg _ (by simpa using fun e => h e.symm)]
  rw [find_keyMatch_filter_ne _ _ _ h]

theorem CheckCache.lookup_update_self (c : CheckCache) (k : String)
    (f : StoreSlot → StoreSlot) (slot : StoreSlot) (h : c.lookup k = some slot) :
    (c.update k f).lookup k = some (f slot) := by
  unfold CheckCache.lookup at h ⊢
  unfold CheckCache.update
  simp only
  rw [find_keyMatch_map_update]
  rcases Option.map_eq_some'.mp h with ⟨pr, hpr, hsnd⟩
  have hk : pr.1 = k := by simpa using List.find?_some hpr
  simp [hpr, hk, hsnd]

theorem CheckCache.lookup_update_ne (c : CheckCache) (k q : String)
    (f : StoreSlot → StoreSlot) (h : q ≠ k) :
    (c.update k f).lookup q = c.lookup q := by
  unfold CheckCache.lookup CheckCache.update
  simp only
  rw [find_keyMatch_map_update]
  cases hf : c.entries.find? (fun p => decide (p.1 = q)) with
  | none => simp
  | some pr =>
    have hq : pr.1 = q := by simpa using List.find?_some hf
    simp [hq, h]

theorem CheckCache.keys_update (c : CheckCache) (k : String)
    (f : StoreSlot → StoreSlot) :
    (c.update k f).entries.map Prod.fst = c.entries.map Prod.fst := by
  unfold CheckCache.update
  simp only [List.map_map]
  apply List.map_congr_left
  intro p _
  by_cases h : p.1 = k <;> simp [h]

/-! ### Coordinator-level shared lemmas -/

theorem CheckCacher.shouldFlush_true (c : CheckCacher) (now : Int) (elem : CacheElem)
    (h : c.flush_interval_in_cycle ≤ now - elem.last_check_time) :
    c.ShouldFlush now elem = true := by
  simp [CheckCacher.ShouldFlush, h]

theorem CheckCacher.shouldFlush_false (c : CheckCacher) (now : Int) (elem : CacheElem)
    (h : now - elem.last_check_time < c.flush_interval_in_cycle) :
    c.ShouldFlush now elem = false := by
  simp [CheckCacher.ShouldFlush]
  omega

theorem CheckCacher.check_stale_eq (c : CheckCacher) (cache : CheckCache) (now : Int)
    (attributes : Attributes) (slot : StoreSlot)
    (hc : c.cache = some cache)
    (hl : cache.lookup (GenerateSignature attributes) = some slot)
    (hage : c.flush_interval_in_cycle ≤ now - slot.elem.last_check_time) :
    c.Check now attributes = (Status.notFound, none, c) := by
  simp [CheckCacher.Check, hc, hl, CheckCacher.shouldFlush_true c now slot.elem hage]

theorem CheckCacher.check_fresh_eq (c : CheckCacher) (cache : CheckCache) (now : Int)
    (attributes : Attributes) (slot : StoreSlot)
    (hc : c.cache = some cache)
    (hl : cache.lookup (GenerateSignature attributes) = some slot)
    (hfresh : now - slot.elem.last_check_time < c.flush_interval_in_cycle) :
    c.Check now attributes =
      (Status.ok, some slot.elem.check_response,
        { c with cache := some (cache.update (GenerateSignature attributes)
            (fun s => { s with elem := { s.elem with last_check_time := now } })) }) := by
  simp [CheckCacher.Check, hc, hl, CheckCacher.shouldFlush_false c now slot.elem hfresh]

theorem CheckCacher.cacheResponse_found_eq (c : CheckCacher) (cache : CheckCache)
    (now : Int) (ns : Rat) (attributes : Attributes) (response : CheckResponse)
    (slot : StoreSlot) (hc : c.cache = some cache)
    (hl : cache.lookup (GenerateSignature attributes) = some slot) :
    c.CacheResponse now ns attributes response =
      (Status.ok, { c with cache := some (cache.update (GenerateSignature attributes)
        (fun s => { s with
          elem := { check_response := response, last_check_time := now } })) }) := by
  simp [CheckCacher.CacheResponse, hc, hl]

theorem CheckCacher.cacheResponse_miss_eq (c : CheckCacher) (cache : CheckCache)
    (now : Int) (ns : Rat) (attributes : Attributes) (response : CheckResponse)
    (hc : c.cache = some cache)
    (hl : cache.lookup (GenerateSignature attributes) = none) :
    c.CacheResponse now ns attributes response =
      (Status.ok, { c with cache := some (cache.insert (GenerateSignature attributes)
        { elem := { check_response := response, last_check_time := now }
          last_use_seconds := ns }) }) := by
  simp [CheckCacher.CacheResponse, hc, hl]

theorem CheckCacher.check_keys_eq (c : CheckCacher) (now : Int) (a : Attributes) :
    ((c.Check now a).2.2).keys = c.keys := by
  cases hc : c.cache with
  | none => simp [CheckCacher.Check, hc]
  | some cache =>
    cases hl : cache.lookup (GenerateSignature a) with
    | none => simp [CheckCacher.Check, hc, hl]
    | some slot =>
      by_cases hsf : c.ShouldFlush now slot.elem
      · simp [CheckCacher.Check, hc, hl, hsf]
      · simp [CheckCacher.Check, hc, hl, hsf, CheckCacher.keys,
          CheckCache.keys_update]

theorem CheckCacher.flush_keys_subset (c : CheckCacher) (ns : Rat) (k : String)
    (hk : k ∈ ((c.Flush ns).2.1).keys) : k ∈ c.keys := by
  cases hc : c.cache with
  | none => simpa [CheckCacher.Flush, hc] using hk
  | some cache =>
    simp only [CheckCacher.Flush, hc, CheckCacher.keys,
      CheckCache.removeExpiredEntries] at hk ⊢
    rcases List.mem_map.mp hk with ⟨p, hp, hfst⟩
    exact List.mem_map.mpr ⟨p, (List.mem_filter.mp hp).1, hfst⟩

theorem CheckCacher.flushAll_keys_eq (c : CheckCacher) :
    ((c.FlushAll).2.1).keys = [] := by
  cases hc : c.cache with
  | none => simp [CheckCacher.FlushAll, CheckCacher.keys, hc]
  | some cache => simp [CheckCacher.FlushAll, CheckCacher.keys, hc, CheckCache.removeAll]

theorem applyOp_fields (c : CheckCacher) (op : Op) :
    (applyOp c op).options = c.options ∧
    (applyOp c op).flush_interval_in_cycle = c.flush_interval_in_cycle := by
  cases op with
  | check now a =>
    cases hc : c.cache with
    | none => simp [applyOp, CheckCacher.Check, hc]
    | some cache =>
      cases hl : cache.lookup (GenerateSignature a) with
      | none => simp [applyOp, CheckCacher.Check, hc, hl]
      | some slot =>
        by_cases hsf : c.ShouldFlush now slot.elem <;>
          simp [applyOp, CheckCacher.Check, hc, hl, hsf]
  | cacheResponse now ns a r =>
    cases hc : c.cache with
    | none => simp [applyOp, CheckCacher.CacheResponse, hc]
    | some cache =>
      cases hl : cache.lookup (GenerateSignature a) with
      | none => simp [applyOp, CheckCacher.CacheResponse, hc, hl]
      | some slot => simp [applyOp, CheckCacher.CacheResponse, hc, hl]
  | flush ns =>
    cases hc : c.cache with
    | none => simp [applyOp, CheckCacher.Flush, hc]
    | some cache => simp [applyOp, CheckCacher.Flush, hc]
  | flushAll =>
    cases hc : c.cache with
    | none => simp [applyOp, CheckCacher.FlushAll, hc]
    | some cache => simp [applyOp, CheckCacher.FlushAll, hc]

theorem run_fields (c : CheckCacher) (ops : List Op) :
    (run c ops).options = c.options ∧
    (run c ops).flush_interval_in_cycle = c.flush_interval_in_cycle := by
  induction ops generalizing c with
  | nil => exact ⟨rfl, rfl⟩
  | cons op ops ih =>
    have h1 := applyOp_fields c op
    have h2 := ih (applyOp c op)
    exact ⟨h2.1.trans h1.1, h2.2.trans h1.2⟩

theorem applyOp_cache_none (c : CheckCacher) (op : Op) (h : c.cache = none) :
    applyOp c op = c := by
  cases op <;> simp [applyOp, CheckCacher.Check, CheckCacher.CacheResponse,
    CheckCacher.Flush, CheckCacher.FlushAll, h]

theorem run_cache_none (c : CheckCacher) (ops : List Op) (h : c.cache = none) :
    run c ops = c := by
  induction ops with
  | nil => rfl
  | cons op ops ih =>
    rw [show run c (op :: ops) = run (applyOp c op) ops from rfl,
      applyOp_cache_none c op h, ih]

theorem mkCheckCacher_cache_none (options : CheckOptions) (frequency : Int)
    (h : options.num_entries < 0) : (mkCheckCacher options frequency).cache = none := by
  simp [mkCheckCacher, not_le.mpr h]

theorem CheckCacher.cacheResponse_status_ok (d : CheckCacher) (m : Int) (ms : Rat)
    (b : Attributes) (r : CheckResponse) : (d.CacheResponse m ms b r).1 = Status.ok := by
  cases hc : d.cache with
  | none => simp [CheckCacher.CacheResponse, hc]
  | some cache =>
    cases hl : cache.lookup (GenerateSignature b) with
    | none => simp [CheckCacher.CacheResponse, hc, hl]
    | some slot => simp [CheckCacher.CacheResponse, hc, hl]

/-! ### The claims -/

/-- C1: for every attribute set whose entry exists in the store, if the
entry's age (current cycle count minus its `last_check_time`) is at or above
the flush interval in cycle units, then `Check` returns the not-found status
and leaves the whole cacher state — in particular the entry and its
`last_check_time` — entirely unmodified. -/
theorem check_stale_entry_misses_without_mutation
    (c : CheckCacher) (cache : CheckCache) (now : Int) (attributes : Attributes)
    (slot : StoreSlot)
    (hc : c.cache = some cache)
    (hl : cache.lookup (GenerateSignature attributes) = some slot)
    (hage : c.flush_interval_in_cycle ≤ now - slot.elem.last_check_time) :
    c.Check now attributes = (Status.notFound, none, c) :=
  CheckCacher.check_stale_eq c cache now attributes slot hc hl hage

/-- Witness for C1: a concrete stale entry (threshold 1000 cycles, written at
cycle 0, checked at cycle 1500) misses and the state is returned unchanged. -/
theorem check_stale_entry_misses_without_mutation_witness :
    CheckCacher.Check
        ⟨⟨10, 1000, 5000⟩, 1000, some ⟨[("a", ⟨⟨7, 0⟩, 0⟩)], 5⟩⟩ 1500 "a" =
      (Status.notFound, none,
        ⟨⟨10, 1000, 5000⟩, 1000, some ⟨[("a", ⟨⟨7, 0⟩, 0⟩)], 5⟩⟩) :=
  check_stale_entry_misses_without_mutation
    ⟨⟨10, 1000, 5000⟩, 1000, some ⟨[("a", ⟨⟨7, 0⟩, 0⟩)], 5⟩⟩
    ⟨[("a", ⟨⟨7, 0⟩, 0⟩)], 5⟩ 1500 "a" ⟨⟨7, 0⟩, 0⟩ rfl (by decide) (by decide)

/-- C2: for every attribute set whose entry exists with age strictly below
the flush interval in cycle units, `Check` sets that entry's
`last_check_time` to the current cycle count, copies the stored response to
the output slot and returns success; every other entry, the key set, the
idle threshold and the rest of the state are untouched, and `Check` never
creates or removes an entry in any state. -/
theorem check_fresh_hit_refreshes_and_returns_response
    (c : CheckCacher) (cache : CheckCache) (now : Int) (attributes : Attributes)
    (slot : StoreSlot)
    (hc : c.cache = some cache)
    (hl : cache.lookup (GenerateSignature attributes) = some slot)
    (hfresh : now - slot.elem.last_check_time < c.flush_interval_in_cycle) :
    (c.Check now attributes).1 = Status.ok ∧
    (c.Check now attributes).2.1 = some slot.elem.check_response ∧
    (∃ cache2,
      (c.Check now attributes).2.2 = { c with cache := some cache2 } ∧
      cache2.lookup (GenerateSignature attributes) =
        some { slot with elem := { slot.elem with last_check_time := now } } ∧
      (∀ k, k ≠ GenerateSignature attributes → cache2.lookup k = cache.lookup k) ∧
      cache2.entries.map Prod.fst = cache.entries.map Prod.fst ∧
      cache2.max_idle_seconds = cache.max_idle_seconds) ∧
    (∀ (d : CheckCacher) (m : Int) (b : Attributes),
      ((d.Check m b).2.2).keys = d.keys) := by
  have he := CheckCacher.check_fresh_eq c cache now attributes slot hc hl hfresh
  refine ⟨by rw [he], by rw [he], ?_, fun d m b => CheckCacher.check_keys_eq d m b⟩
  refine ⟨cache.update (GenerateSignature attributes)
      (fun s => { s with elem := { s.elem with last_check_time := now } }),
    by rw [he], ?_, ?_, ?_, rfl⟩
  · exact CheckCache.lookup_update_self cache (GenerateSignature attributes) _ slot hl
  · exact fun k hk => CheckCache.lookup_update_ne cache (GenerateSignature attributes) k _ hk
  · exact CheckCache.keys_update cache (GenerateSignature attributes) _

/-- Witness for C2: a concrete fresh hit (threshold 1000 cycles, written at
cycle 0, checked at cycle 500) succeeds and yields the cached response. -/
theorem check_fresh_hit_refreshes_and_returns_response_witness :
    (CheckCacher.Check
        ⟨⟨10, 1000, 5000⟩, 1000, some ⟨[("a", ⟨⟨7, 0⟩, 0⟩)], 5⟩⟩ 500 "a").1 =
      Status.ok ∧
    (CheckCacher.Check
        ⟨⟨10, 1000, 5000⟩, 1000, some ⟨[("a", ⟨⟨7, 0⟩, 0⟩)], 5⟩⟩ 500 "a").2.1 =
      some 7 :=
  have h := check_fresh_hit_refreshes_and_returns_response
    ⟨⟨10, 1000, 5000⟩, 1000, some ⟨[("a", ⟨⟨7, 0⟩, 0⟩)], 5⟩⟩
    ⟨[("a", ⟨⟨7, 0⟩, 0⟩)], 5⟩ 500 "a" ⟨⟨7, 0⟩, 0⟩ rfl (by decide) (by decide)
  ⟨h.1, h.2.1⟩

/-- C3 counterexample: with caching enabled but `flush_interval_ms = 0`, a
`CacheResponse` followed by an immediate `Check` at the same cycle instant
returns not-found rather than success, because the staleness test is `age ≥
threshold` and the threshold is zero. -/
theorem cache_response_then_immediate_check_hits_cex :
    ((((mkCheckCacher ⟨10, 0, 5000⟩ 1000).CacheResponse 0 0 "a" 7).2).Check 0 "a").1 =
      Status.notFound := by decide

/-- C3 (amended): provided caching is enabled and the staleness threshold in
cycle units is positive, after `CacheResponse(attrs, R)` an immediate
`Check(attrs)` (same cycle count, no intervening operation) returns success
with the output response equal to `R`. -/
theorem cache_response_then_immediate_check_hits
    (c : CheckCacher) (cache : CheckCache) (now : Int) (ns : Rat)
    (attributes : Attributes) (response : CheckResponse)
    (hc : c.cache = some cache) (hpos : 0 < c.flush_interval_in_cycle) :
    (((c.CacheResponse now ns attributes response).2).Check now attributes).1 =
      Status.ok ∧
    (((c.CacheResponse now ns attributes response).2).Check now attributes).2.1 =
      some response := by
  cases hl : cache.lookup (GenerateSignature attributes) with
  | some slot =>
    rw [CheckCacher.cacheResponse_found_eq c cache now ns attributes response slot hc hl]
    have hl2 := CheckCache.lookup_update_self cache (GenerateSignature attributes)
      (fun s => { s with
        elem := { check_response := response, last_check_time := now } }) slot hl
    rw [CheckCacher.check_fresh_eq _ _ now attributes _ rfl hl2 (by simpa using hpos)]
    exact ⟨rfl, rfl⟩
  | none =>
    rw [CheckCacher.cacheResponse_miss_eq c cache now ns attributes response hc hl]
    have hl2 := CheckCache.lookup_insert_self cache (GenerateSignature attributes)
      { elem := { check_response := response, last_check_time := now }
        last_use_seconds := ns }
    rw [CheckCacher.check_fresh_eq _ _ now attributes _ rfl hl2 (by simpa using hpos)]
    exact ⟨rfl, rfl⟩

/-- Witness for C3 (amended): with a 1000-cycle threshold, caching `7` and
checking at the same instant hits fresh and returns `7`. -/
theorem cache_response_then_immediate_check_hits_witness :
    (((CheckCacher.CacheResponse ⟨⟨10, 1000, 5000⟩, 1000, some ⟨[], 5⟩⟩
        0 0 "a" 7).2).Check 0 "a").1 = Status.ok ∧
    (((CheckCacher.CacheResponse ⟨⟨10, 1000, 5000⟩, 1000, some ⟨[], 5⟩⟩
        0 0 "a" 7).2).Check 0 "a").2.1 = some 7 :=
  cache_response_then_immediate_check_hits ⟨⟨10, 1000, 5000⟩, 1000, some ⟨[], 5⟩⟩
    ⟨[], 5⟩ 0 0 "a" 7 rfl (by decide)

/-- C4: when the configured `num_entries` is negative, the constructor never
creates the store; after every sequence of operations the state is the
initial one, no Cache Entry exists, `Check` always returns not-found and
`CacheResponse` is a no-op that returns success. -/
theorem disabled_cache_always_misses
    (options : CheckOptions) (frequency : Int) (ops : List Op)
    (h : options.num_entries < 0) :
    run (mkCheckCacher options frequency) ops = mkCheckCacher options frequency ∧
    (run (mkCheckCacher options frequency) ops).keys = [] ∧
    (∀ (now : Int) (attributes : Attributes),
      (run (mkCheckCacher options frequency) ops).Check now attributes =
        (Status.notFound, none, run (mkCheckCacher options frequency) ops)) ∧
    (∀ (now : Int) (ns : Rat) (attributes : Attributes) (response : CheckResponse),
      (run (mkCheckCacher options frequency) ops).CacheResponse now ns attributes
          response =
        (Status.ok, run (mkCheckCacher options frequency) ops)) := by
  have hn := mkCheckCacher_cache_none options frequency h
  have hr := run_cache_none (mkCheckCacher options frequency) ops hn
  refine ⟨hr, ?_, ?_, ?_⟩
  · rw [hr]; simp [CheckCacher.keys, hn]
  · intro now attributes; rw [hr]; simp [CheckCacher.Check, hn]
  · intro now ns attributes response; rw [hr]; simp [CheckCacher.CacheResponse, hn]

/-- Witness for C4: with `num_entries = -1`, caching a response and then
checking still reports not-found and leaves the state unchanged. -/
theorem disabled_cache_always_misses_witness :
    (run (mkCheckCacher ⟨-1, 1000, 5000⟩ 1000)
        [Op.cacheResponse 0 0 "a" 7]).Check 0 "a" =
      (Status.notFound, none,
        run (mkCheckCacher ⟨-1, 1000, 5000⟩ 1000) [Op.cacheResponse 0 0 "a" 7]) :=
  (disabled_cache_always_misses ⟨-1, 1000, 5000⟩ 1000 [Op.cacheResponse 0 0 "a" 7]
      (by decide)).2.2.1 0 "a"

/-- C5: `CacheResponse` always returns success; when caching is enabled it
overwrites an existing entry's `last_check_time` (to the current cycle
count) and stored response, or inserts a new Cache Entry with
`last_check_time` equal to the current cycle count when none exists, leaving
every other signature untouched; and no other operation (`Check`, `Flush`,
`FlushAll`) ever creates an entry. -/
theorem cache_response_writes_entry
    (c : CheckCacher) (cache : CheckCache) (now : Int) (ns : Rat)
    (attributes : Attributes) (response : CheckResponse)
    (hc : c.cache = some cache) :
    (∀ (d : CheckCacher) (m : Int) (ms : Rat) (b : Attributes) (r : CheckResponse),
      (d.CacheResponse m ms b r).1 = Status.ok) ∧
    (∃ cache2,
      (c.CacheResponse now ns attributes response).2 = { c with cache := some cache2 } ∧
      (∀ slot, cache.lookup (GenerateSignature attributes) = some slot →
        cache2.lookup (GenerateSignature attributes) =
          some { slot with
            elem := { check_response := response, last_check_time := now } }) ∧
      (cache.lookup (GenerateSignature attributes) = none →
        cache2.lookup (GenerateSignature attributes) =
          some { elem := { check_response := response, last_check_time := now }
                 last_use_seconds := ns }) ∧
      (∀ k, k ≠ GenerateSignature attributes → cache2.lookup k = cache.lookup k)) ∧
    (∀ (d : CheckCacher) (m : Int) (b : Attributes),
      ((d.Check m b).2.2).keys = d.keys) ∧
    (∀ (d : CheckCacher) (ms : Rat) (k : String),
      k ∈ ((d.Flush ms).2.1).keys → k ∈ d.keys) ∧
    (∀ d : CheckCacher, ((d.FlushAll).2.1).keys = []) := by
  refine ⟨CheckCacher.cacheResponse_status_ok, ?_,
    CheckCacher.check_keys_eq, CheckCacher.flush_keys_subset,
    CheckCacher.flushAll_keys_eq⟩
  cases hl : cache.lookup (GenerateSignature attributes) with
  | some slot =>
    refine ⟨cache.update (GenerateSignature attributes)
        (fun s => { s with
          elem := { check_response := response, last_check_time := now } }),
      ?_, ?_, ?_, ?_⟩
    · rw [CheckCacher.cacheResponse_found_eq c cache now ns attributes response slot hc hl]
    · intro slot2 hl2
      have hs : slot = slot2 := Option.some.inj hl2
      subst hs
      exact CheckCache.lookup_update_self cache (GenerateSignature attributes) _ slot hl
    · intro hl2
      exact absurd hl2 (Option.some_ne_none slot)
    · exact fun k hk => CheckCache.lookup_update_ne cache (GenerateSignature attributes) k _ hk
  | none =>
    refine ⟨cache.insert (GenerateSignature attributes)
        { elem := { check_response := response, last_check_time := now }
          last_use_seconds := ns },
      ?_, ?_, ?_, ?_⟩
    · rw [CheckCacher.cacheResponse_miss_eq c cache now ns attributes response hc hl]
    · intro slot2 hl2
      exact absurd hl2.symm (Option.some_ne_none slot2)
    · intro _
      exact CheckCache.lookup_insert_self cache (GenerateSignature attributes) _
    · exact fun k hk => CheckCache.lookup_insert_ne cache (GenerateSignature attributes) k _ hk

/-- Witness for C5: caching `7` under a fresh signature returns success, and
the new entry is found with `last_check_time` equal to the write time. -/
theorem cache_response_writes_entry_witness :
    (CheckCacher.CacheResponse ⟨⟨10, 1000, 5000⟩, 1000, some ⟨[], 5⟩⟩
        3 1 "a" 7).1 = Status.ok :=
  (cache_response_writes_entry ⟨⟨10, 1000, 5000⟩, 1000, some ⟨[], 5⟩⟩ ⟨[], 5⟩
      3 1 "a" 7 rfl).1 ⟨⟨10, 1000, 5000⟩, 1000, some ⟨[], 5⟩⟩ 3 1 "a" 7

/-- C6 counterexample: a concrete entry written at cycle 0 / second 0, with
a 1000-cycle staleness threshold and a 5-second idle bound. A `Flush` at
second 2 removes nothing (the deletion hook fires on no element and the
state is unchanged), yet the subsequent `Check` at cycle 2000 — the current
cycle count at that moment — returns not-found: the surviving entry is
stale, so it is not retrievable by a subsequent `Check` as the claim
states. -/
theorem flush_young_entry_not_retrievable_cex :
    (CheckCacher.Flush ⟨⟨10, 1000, 5000⟩, 1000, some ⟨[("a", ⟨⟨7, 0⟩, 0⟩)], 5⟩⟩ 2).2.2
        = [] ∧
    (CheckCacher.Flush ⟨⟨10, 1000, 5000⟩, 1000, some ⟨[("a", ⟨⟨7, 0⟩, 0⟩)], 5⟩⟩ 2).2.1
        = ⟨⟨10, 1000, 5000⟩, 1000, some ⟨[("a", ⟨⟨7, 0⟩, 0⟩)], 5⟩⟩ ∧
    ((CheckCacher.Flush ⟨⟨10, 1000, 5000⟩, 1000,
          some ⟨[("a", ⟨⟨7, 0⟩, 0⟩)], 5⟩⟩ 2).2.1.Check 2000 "a").1 =
      Status.notFound := by
  have h25 : ((2 : Rat) - 0 < 5) := by norm_num
  have h25' : ((2 : Rat) < 5) := by norm_num
  have h52 : ¬((5 : Rat) ≤ 2 - 0) := by norm_num
  have h52' : ¬((5 : Rat) ≤ 2) := by norm_num
  have hflush : CheckCacher.Flush
      ⟨⟨10, 1000, 5000⟩, 1000, some ⟨[("a", ⟨⟨7, 0⟩, 0⟩)], 5⟩⟩ 2 =
      (Status.ok, ⟨⟨10, 1000, 5000⟩, 1000, some ⟨[("a", ⟨⟨7, 0⟩, 0⟩)], 5⟩⟩, []) := by
    simp [CheckCacher.Flush, CheckCache.removeExpiredEntries, h25, h25', h52, h52']
  refine ⟨by rw [hflush], by rw [hflush], ?_⟩
  rw [hflush]
  decide

/-- C6 (amended): `Flush` returns success and removes — handing to the
deletion hook — exactly those entries whose idle time (seconds since last
use) is at or above the store's idle bound; every entry whose idle time is
below the bound stays in the store unchanged, and a subsequent `Check` for
it succeeds with the stored response provided the entry is also fresh per
the cycle-unit staleness test. -/
theorem flush_removes_exactly_idle_expired
    (c : CheckCacher) (cache : CheckCache) (ns : Rat)
    (hc : c.cache = some cache)
    (hnd : (cache.entries.map Prod.fst).Nodup) :
    (c.Flush ns).1 = Status.ok ∧
    (∃ cache2, (c.Flush ns).2.1 = { c with cache := some cache2 } ∧
      cache2.max_idle_seconds = cache.max_idle_seconds ∧
      (∀ k slot, cache.lookup k = some slot →
        (cache.max_idle_seconds ≤ ns - slot.last_use_seconds →
          cache2.lookup k = none ∧ slot.elem ∈ (c.Flush ns).2.2) ∧
        (ns - slot.last_use_seconds < cache.max_idle_seconds →
          cache2.lookup k = some slot)) ∧
      (∀ e ∈ (c.Flush ns).2.2, ∃ k slot, cache.lookup k = some slot ∧
        slot.elem = e ∧ cache.max_idle_seconds ≤ ns - slot.last_use_seconds)) ∧
    (∀ (attributes : Attributes) (slot : StoreSlot) (now : Int),
      cache.lookup (GenerateSignature attributes) = some slot →
      ns - slot.last_use_seconds < cache.max_idle_seconds →
      now - slot.elem.last_check_time < c.flush_interval_in_cycle →
      (((c.Flush ns).2.1).Check now attributes).1 = Status.ok ∧
      (((c.Flush ns).2.1).Check now attributes).2.1 =
        some slot.elem.check_response) := by
  have hflush : c.Flush ns =
      (Status.ok,
       { c with cache := some ⟨cache.entries.filter
           (fun p => decide (ns - p.2.last_use_seconds < cache.max_idle_seconds)),
           cache.max_idle_seconds⟩ },
       (cache.entries.filter
          (fun p => decide (cache.max_idle_seconds ≤ ns - p.2.last_use_seconds))).map
         (fun p => p.2.elem)) := by
    simp [CheckCacher.Flush, hc, CheckCache.removeExpiredEntries]
  rw [hflush]
  refine ⟨rfl, ⟨⟨cache.entries.filter
      (fun p => decide (ns - p.2.last_use_seconds < cache.max_idle_seconds)),
      cache.max_idle_seconds⟩, rfl, rfl, ?_, ?_⟩, ?_⟩
  · intro k slot hlk
    rcases Option.map_eq_some'.mp hlk with ⟨pr, hpr, hsnd⟩
    constructor
    · intro hexp
      constructor
      · show ((cache.entries.filter _).find? (fun p => decide (p.1 = k))).map Prod.snd
            = none
        rw [find_keyMatch_filter_of_drop cache.entries k _ pr hnd hpr
          (by rw [hsnd]; exact decide_eq_false (not_lt.mpr hexp))]
        rfl
      · refine List.mem_map.mpr ⟨pr, List.mem_filter.mpr
          ⟨List.mem_of_find?_eq_some hpr, by rw [hsnd]; exact decide_eq_true hexp⟩,
          by rw [hsnd]⟩
    · intro hfresh
      show ((cache.entries.filter _).find? (fun p => decide (p.1 = k))).map Prod.snd
          = some slot
      rw [find_keyMatch_filter_of_keep cache.entries k _ pr hpr
        (by rw [hsnd]; exact decide_eq_true hfresh)]
      simp [hsnd]
  · intro e he
    rcases List.mem_map.mp he with ⟨pr, hpr, helem⟩
    rcases List.mem_filter.mp hpr with ⟨hmem, hexp⟩
    refine ⟨pr.1, pr.2, ?_, helem, by simpa using hexp⟩
    show (cache.entries.find? (fun p => decide (p.1 = pr.1))).map Prod.snd = some pr.2
    rw [find_keyMatch_of_mem cache.entries pr hnd hmem]
    rfl
  · intro attributes slot now hlk hidle hfresh
    dsimp only
    rcases Option.map_eq_some'.mp hlk with ⟨pr, hpr, hsnd⟩
    have hl2 : (⟨cache.entries.filter
        (fun p => decide (ns - p.2.last_use_seconds < cache.max_idle_seconds)),
        cache.max_idle_seconds⟩ : CheckCache).lookup (GenerateSignature attributes) =
        some slot := by
      show ((cache.entries.filter _).find?
          (fun p => decide (p.1 = GenerateSignature attributes))).map Prod.snd
        = some slot
      rw [find_keyMatch_filter_of_keep cache.entries (GenerateSignature attributes) _
        pr hpr (by rw [hsnd]; exact decide_eq_true hidle)]
      simp [hsnd]
    rw [CheckCacher.check_fresh_eq
      { c with cache := some ⟨cache.entries.filter
          (fun p => decide (ns - p.2.last_use_seconds < cache.max_idle_seconds)),
          cache.max_idle_seconds⟩ }
      ⟨cache.entries.filter
          (fun p => decide (ns - p.2.last_use_seconds < cache.max_idle_seconds)),
          cache.max_idle_seconds⟩ now attributes slot rfl hl2 hfresh]
    exact ⟨rfl, rfl⟩

/-- Witness for C6 (amended): with a 5-second idle bound, flushing at second
6 a store holding an entry last used at second 0 and one last used at second
6 removes exactly the former (the deletion hook fires on its element) and
keeps the latter. -/
theorem flush_removes_exactly_idle_expired_witness :
    (CheckCacher.Flush
        ⟨⟨10, 1000, 5000⟩, 1000,
          some ⟨[("a", ⟨⟨7, 0⟩, 0⟩), ("b", ⟨⟨8, 0⟩, 6⟩)], 5⟩⟩ 6).1 = Status.ok :=
  (flush_removes_exactly_idle_expired
    ⟨⟨10, 1000, 5000⟩, 1000, some ⟨[("a", ⟨⟨7, 0⟩, 0⟩), ("b", ⟨⟨8, 0⟩, 6⟩)], 5⟩⟩
    ⟨[("a", ⟨⟨7, 0⟩, 0⟩), ("b", ⟨⟨8, 0⟩, 6⟩)], 5⟩ 6 rfl (by decide)).1

/-- C7: `FlushAll` removes every entry regardless of age, handing each
element to the deletion hook, so a subsequent `Check` for any attribute set
returns not-found; it is idempotent, and a no-op returning success when the
store is empty or caching is disabled. -/
theorem flush_all_drains_everything (c : CheckCacher) :
    (c.FlushAll).1 = Status.ok ∧
    ((c.FlushAll).2.1).keys = [] ∧
    (∀ cache, c.cache = some cache →
      (c.FlushAll).2.2 = cache.entries.map (fun p => p.2.elem)) ∧
    (∀ (now : Int) (attributes : Attributes),
      ((c.FlushAll).2.1).Check now attributes =
        (Status.notFound, none, (c.FlushAll).2.1)) ∧
    ((c.FlushAll).2.1).FlushAll = (Status.ok, (c.FlushAll).2.1, []) ∧
    (c.cache = none → (c.FlushAll).2.1 = c) ∧
    (∀ cache, c.cache = some cache → cache.entries = [] →
      (c.FlushAll).2.1 = c ∧ (c.FlushAll).2.2 = []) := by
  cases hc : c.cache with
  | none =>
    have hf : c.FlushAll = (Status.ok, c, []) := by
      simp [CheckCacher.FlushAll, hc]
    rw [hf]
    refine ⟨rfl, ?_, ?_, ?_, hf, fun _ => rfl, ?_⟩
    · simp [CheckCacher.keys, hc]
    · intro cache hcc
      exact absurd hcc.symm (Option.some_ne_none cache)
    · intro now attributes
      simp [CheckCacher.Check, hc]
    · intro cache hcc
      exact absurd hcc.symm (Option.some_ne_none cache)
  | some cache0 =>
    have hf : c.FlushAll =
        (Status.ok, { c with cache := some ⟨[], cache0.max_idle_seconds⟩ },
          cache0.entries.map (fun p => p.2.elem)) := by
      simp [CheckCacher.FlushAll, hc, CheckCache.removeAll]
    rw [hf]
    refine ⟨rfl, ?_, ?_, ?_, ?_, ?_, ?_⟩
    · simp [CheckCacher.keys]
    · intro cache hcc
      have he : cache0 = cache := Option.some.inj hcc
      subst he
      rfl
    · intro now attributes
      simp [CheckCacher.Check, CheckCache.lookup]
    · simp [CheckCacher.FlushAll, CheckCache.removeAll]
    · intro h0
      exact absurd h0 (Option.some_ne_none cache0)
    · intro cache hcc hent
      have he : cache0 = cache := Option.some.inj hcc
      subst he
      obtain ⟨ents, m⟩ := cache0
      simp only at hent
      subst hent
      cases c with
      | mk o f ca =>
        simp only at hc
        constructor
        · simp [hc]
        · rfl

/-- Witness for C7: draining a concrete two-entry store fires the hook on
both elements, and a `Check` on the drained state misses. -/
theorem flush_all_drains_everything_witness :
    (CheckCacher.FlushAll
        ⟨⟨10, 1000, 5000⟩, 1000,
          some ⟨[("a", ⟨⟨7, 0⟩, 0⟩), ("b", ⟨⟨8, 0⟩, 6⟩)], 5⟩⟩).2.2 =
      [⟨7, 0⟩, ⟨8, 0⟩] :=
  (flush_all_drains_everything
      ⟨⟨10, 1000, 5000⟩, 1000,
        some ⟨[("a", ⟨⟨7, 0⟩, 0⟩), ("b", ⟨⟨8, 0⟩, 6⟩)], 5⟩⟩).2.2.1
    ⟨[("a", ⟨⟨7, 0⟩, 0⟩), ("b", ⟨⟨8, 0⟩, 6⟩)], 5⟩ rfl

/-- C8: `GetNextFlushInterval` returns the sentinel `-1` exactly when the
cache was disabled at construction, and otherwise returns the configured
`expiration_ms` (the idle-expiration setting, in milliseconds). -/
theorem get_next_flush_interval_spec (options : CheckOptions) (frequency : Int) :
    (options.num_entries < 0 →
      (mkCheckCacher options frequency).GetNextFlushInterval = -1) ∧
    (0 ≤ options.num_entries →
      (mkCheckCacher options frequency).GetNextFlushInterval =
        options.expiration_ms) ∧
    (∀ c : CheckCacher, c.cache = none → c.GetNextFlushInterval = -1) ∧
    (∀ (c : CheckCacher) (cache : CheckCache), c.cache = some cache →
      c.GetNextFlushInterval = c.options.expiration_ms) := by
  refine ⟨?_, ?_, ?_, ?_⟩
  · intro h
    simp [CheckCacher.GetNextFlushInterval,
      mkCheckCacher_cache_none options frequency h]
  · intro h
    simp [CheckCacher.GetNextFlushInterval, mkCheckCacher, h]
  · intro c h
    simp [CheckCacher.GetNextFlushInterval, h]
  · intro c cache h
    simp [CheckCacher.GetNextFlushInterval, h]

/-- Witness for C8: disabled configuration yields `-1`; enabled configuration
yields its `expiration_ms` of 5000. -/
theorem get_next_flush_interval_spec_witness :
    (mkCheckCacher ⟨-1, 1000, 5000⟩ 7).GetNextFlushInterval = -1 ∧
    (mkCheckCacher ⟨10, 1000, 5000⟩ 7).GetNextFlushInterval = 5000 :=
  ⟨(get_next_flush_interval_spec ⟨-1, 1000, 5000⟩ 7).1 (by decide),
   (get_next_flush_interval_spec ⟨10, 1000, 5000⟩ 7).2.1 (by decide)⟩

/-- C9: the staleness threshold in cycle units is computed at construction as
`flush_interval_ms * frequency / 1000` in truncating integer arithmetic; it
is never changed by any subsequent sequence of operations, and `ShouldFlush`
— hence every `Check` — compares the entry's age against exactly this stored
field. -/
theorem flush_interval_converted_once_at_construction
    (options : CheckOptions) (frequency : Int) (ops : List Op) :
    (mkCheckCacher options frequency).flush_interval_in_cycle =
      Int.tdiv (options.flush_interval_ms * frequency) 1000 ∧
    (run (mkCheckCacher options frequency) ops).flush_interval_in_cycle =
      Int.tdiv (options.flush_interval_ms * frequency) 1000 ∧
    (∀ (c : CheckCacher) (now : Int) (elem : CacheElem),
      c.ShouldFlush now elem =
        decide (c.flush_interval_in_cycle ≤ now - elem.last_check_time)) :=
  ⟨rfl, (run_fields (mkCheckCacher options frequency) ops).2, fun _ _ _ => rfl⟩

/-- C10: whenever the staleness threshold is zero cycle units — as it is for
any construction with `flush_interval_ms = 0` — `Check` returns not-found
even immediately after a `CacheResponse` for the same attribute set at the
same cycle instant, because the staleness test is `age ≥ threshold`. -/
theorem zero_flush_interval_always_misses
    (c : CheckCacher) (now : Int) (ns : Rat) (attributes : Attributes)
    (response : CheckResponse)
    (h : c.flush_interval_in_cycle = 0) :
    (((c.CacheResponse now ns attributes response).2).Check now attributes).1 =
      Status.notFound ∧
    (∀ (options : CheckOptions) (frequency : Int), options.flush_interval_ms = 0 →
      (mkCheckCacher options frequency).flush_interval_in_cycle = 0) := by
  constructor
  · cases hc : c.cache with
    | none =>
      simp [CheckCacher.CacheResponse, CheckCacher.Check, hc]
    | some cache =>
      cases hl : cache.lookup (GenerateSignature attributes) with
      | some slot =>
        rw [CheckCacher.cacheResponse_found_eq c cache now ns attributes response
          slot hc hl]
        have hl2 := CheckCache.lookup_update_self cache (GenerateSignature attributes)
          (fun s => { s with
            elem := { check_response := response, last_check_time := now } }) slot hl
        rw [CheckCacher.check_stale_eq _ _ now attributes _ rfl hl2 (by simp [h])]
      | none =>
        rw [CheckCacher.cacheResponse_miss_eq c cache now ns attributes response hc hl]
        have hl2 := CheckCache.lookup_insert_self cache (GenerateSignature attributes)
          { elem := { check_response := response, last_check_time := now }
            last_use_seconds := ns }
        rw [CheckCacher.check_stale_eq _ _ now attributes _ rfl hl2 (by simp [h])]
  · intro options frequency hf
    simp only [mkCheckCacher, hf, zero_mul]
    rfl

/-- Witness for C10: a concrete zero-threshold cacher caches `7` at cycle 3
and the immediate `Check` at cycle 3 still reports not-found. -/
theorem zero_flush_interval_always_misses_witness :
    (((CheckCacher.CacheResponse ⟨⟨10, 0, 5000⟩, 0, some ⟨[], 5⟩⟩
        3 0 "a" 7).2).Check 3 "a").1 = Status.notFound :=
  (zero_flush_interval_always_misses ⟨⟨10, 0, 5000⟩, 0, some ⟨[], 5⟩⟩
    3 0 "a" 7 rfl).1

end MixerClient
